import Mathlib

/-
Verification of the zweek coder tool executor and recursive agent controller.

The definitions below are a shallow embedding of the C++ sources:
  src/coder/agent_toolset.cpp  (AgentToolSet: sandboxed line-oriented file tools)
  src/coder/recursive_agent.cpp (RecursiveAgent: the observe/think/act controller)

Modelling conventions:
- A file's on-disk state is the list of its newline-delimited records, exactly
  what AgentToolSet::ReadFileLines produces (std::getline splits on a bare
  newline character and the writer re-normalizes the trailing newline), so a
  regular file at a resolved path is modelled as `Option (List String)`
  (`none` = no file at that path).
- Path resolution (std::filesystem::weakly_canonical) is not re-implemented;
  IsPathSafe is modelled on the already-canonicalized path strings it compares,
  and each operation takes the boolean outcome of its path-safety test plus the
  file state at its resolved path as parameters.
- C++ `int` arguments are modelled as `Int`. In every reachable branch the
  arithmetic stays far inside the 32-bit range (the guards force
  1 <= start <= end before any subtraction, and file lengths enter theorems
  under an explicit bound), so no wrap-around modelling is required.
- I/O failure branches (ifstream/ofstream open or write failure) are not
  modelled; they are noted where they occur in the source.
-/

namespace Zweek

/-- Mirrors `struct ToolResult` of agent_toolset.hpp with its member
initializers. -/
structure ToolResult where
  success : Bool := false
  output : String := ""
  error : String := ""
  lines_returned : Nat := 0
  truncated : Bool := false
  finished : Bool := false
deriving Repr, DecidableEq

/-- Hard limit MAX_READ_LINES from agent_toolset.hpp. -/
def MAX_READ_LINES : Int := 50

/-- Hard limit MAX_WRITE_LINES from agent_toolset.hpp. -/
def MAX_WRITE_LINES : Nat := 200

/-- Hard limit MAX_GREP_RESULTS from agent_toolset.hpp. -/
def MAX_GREP_RESULTS : Nat := 20

/-- Split a character list at every occurrence of the delimiter `c`; `acc`
holds the (reversed) characters of the piece being built. Character-level
equivalent of repeated delimiter search on a std::string. -/
def splitOnCharAux (c : Char) : List Char → List Char → List (List Char)
  | [], acc => [acc.reverse]
  | d :: rest, acc =>
      if d = c then acc.reverse :: splitOnCharAux c rest []
      else splitOnCharAux c rest (d :: acc)

/-- Splitting a content string into lines exactly as the
`while (std::getline(iss, line))` loops of WriteLines/InsertLines do:
records are delimited by a bare newline, a final newline does not open an
empty final record, and the empty string yields no records. -/
def getlineSplit (s : String) : List String :=
  if s.data.isEmpty then []
  else
    let parts := (splitOnCharAux '\n' s.data []).map (fun cs => String.mk cs)
    if s.data.getLast? = some '\n' then parts.dropLast else parts

/-- Mirrors `AgentToolSet::IsPathSafe` on the two already-weakly-canonicalized
path strings it compares: the source runs
`target_str.find(base_str) == 0`, i.e. a plain string-prefix test on the
byte/character sequences. -/
def isPathSafe (base target : String) : Bool :=
  base.data.isPrefixOf target.data

/-- Modelled from the spec: the component-wise inside-root check demanded by
section 4.1/9 of the specification (the resolved target must equal the root or
have it as a path-component-wise ancestor). Used only to compare the
specified check with the string-prefix check the source actually performs. -/
def pathComponents (p : String) : List (List Char) :=
  (splitOnCharAux '/' p.data []).filter (fun comp => ¬ comp.isEmpty)

/-- Modelled from the spec: see pathComponents. -/
def isInsideComponentwise (base target : String) : Bool :=
  (pathComponents base).isPrefixOf (pathComponents target)

/-- The body of the ReadLines emission loop
`for (int i = actual_start; i <= actual_end; ++i) ss << i << ": " << lines[i-1] << "\n"`,
rendered as a map over the 1-indexed positions a..b. -/
def emitLines (lines : List String) (a b : Nat) : String :=
  String.join ((List.range' a (b + 1 - a)).map
    (fun i => toString i ++ ": " ++ lines.getD (i - 1) "" ++ "\n"))

/-- Mirrors `AgentToolSet::ReadLines`. `safe` is the outcome of
`IsPathSafe(ResolvePath(path))` and `file` the regular-file state at the
resolved path. The source's `lines.empty() && file_size > 0` branch models an
ifstream open failure and is unreachable for a pure file state (any non-empty
content yields at least one getline record), so it is omitted. -/
def readLines (path : String) (safe : Bool) (file : Option (List String))
    (start_line end_line : Int) : ToolResult :=
  if start_line < 1 ∨ end_line < start_line then
    { error := "Invalid line range. Use 1-indexed positive integers." }
  else if MAX_READ_LINES < end_line - start_line + 1 then
    { error := "Too many lines requested (" ++ toString (end_line - start_line + 1) ++
               "). Maximum is " ++ toString MAX_READ_LINES ++ ". Narrow your request." }
  else if safe = false then
    { error := "Path outside working directory." }
  else
    match file with
    | none => { error := "File not found: " ++ path }
    | some lines =>
        let n : Int := lines.length
        let actualStart := min start_line (n + 1)
        let actualEnd := min end_line n
        let body := emitLines lines actualStart.toNat actualEnd.toNat
        let eof := if actualEnd < end_line
                   then "[EOF at line " ++ toString lines.length ++ "]\n"
                   else ""
        { success := true
          output := body ++ eof
          lines_returned := actualEnd.toNat + 1 - actualStart.toNat }

/-- Mirrors `AgentToolSet::WriteLines`; returns the ToolResult together with
the file state after the call (the WriteFileLines I/O-failure branch is not
modelled: the pure rewrite always succeeds). -/
def writeLines (path : String) (safe : Bool) (file : Option (List String))
    (start_line end_line : Int) (new_content : String) :
    ToolResult × Option (List String) :=
  if start_line < 1 ∨ end_line < start_line then
    ({ error := "Invalid line range." }, file)
  else if safe = false then
    ({ error := "Path outside working directory." }, file)
  else
    match file with
    | none => ({ error := "File not found. Use CREATE first for new files." }, none)
    | some lines =>
        let new_lines := getlineSplit new_content
        if MAX_WRITE_LINES < new_lines.length then
          ({ error := "Too many lines to write (" ++ toString new_lines.length ++
                      "). Maximum is " ++ toString MAX_WRITE_LINES ++ "." }, some lines)
        else
          let idxStart := (start_line - 1).toNat
          let idxEnd : Int := min (end_line - 1) ((lines.length : Int) - 1)
          let before := lines.take idxStart
          let padded := before ++ List.replicate (idxStart - before.length) ""
          let result_lines := padded ++ new_lines ++ lines.drop (idxEnd + 1).toNat
          ({ success := true
             output := "Replaced lines " ++ toString start_line ++ "-" ++
                       toString end_line ++ " with " ++ toString new_lines.length ++
                       " new lines.\n" ++ "File now has " ++
                       toString result_lines.length ++ " lines.\n" },
           some result_lines)

/-- Mirrors `AgentToolSet::InsertLines` (write-failure branch not modelled). -/
def insertLines (path : String) (safe : Bool) (file : Option (List String))
    (after_line : Int) (new_content : String) :
    ToolResult × Option (List String) :=
  if after_line < 0 then
    ({ error := "Invalid line number. Use 0 to insert at beginning." }, file)
  else if safe = false then
    ({ error := "Path outside working directory." }, file)
  else
    match file with
    | none => ({ error := "File not found. Use CREATE first for new files." }, none)
    | some lines =>
        let new_lines := getlineSplit new_content
        if MAX_WRITE_LINES < new_lines.length then
          ({ error := "Too many lines to insert." }, some lines)
        else
          let insert_pos := (min after_line (lines.length : Int)).toNat
          let result_lines := lines.take insert_pos ++ new_lines ++ lines.drop insert_pos
          ({ success := true
             output := "Inserted " ++ toString new_lines.length ++ " lines after line " ++
                       toString after_line ++ ".\n" ++ "File now has " ++
                       toString result_lines.length ++ " lines.\n" },
           some result_lines)

/-- Mirrors `AgentToolSet::DeleteLines` (write-failure branch not modelled). -/
def deleteLines (path : String) (safe : Bool) (file : Option (List String))
    (start_line end_line : Int) : ToolResult × Option (List String) :=
  if start_line < 1 ∨ end_line < start_line then
    ({ error := "Invalid line range." }, file)
  else if safe = false then
    ({ error := "Path outside working directory." }, file)
  else
    match file with
    | none => ({ error := "File not found." }, none)
    | some lines =>
        let idxStart := (start_line - 1).toNat
        let idxEnd : Int := min (end_line - 1) ((lines.length : Int) - 1)
        if lines.length ≤ idxStart then
          ({ error := "Start line beyond end of file." }, some lines)
        else
          let deleted := idxEnd - (start_line - 1) + 1
          let result_lines := lines.take idxStart ++ lines.drop (idxEnd + 1).toNat
          ({ success := true
             output := "Deleted " ++ toString deleted ++ " lines.\n" ++
                       "File now has " ++ toString result_lines.length ++ " lines.\n" },
           some result_lines)

/-- Mirrors `AgentToolSet::CreateFile`: parent-directory creation and the
ofstream open-failure branch are not modelled; `file` is the state at the
resolved path (the source tests `std::filesystem::exists`, and a regular file
or nothing is the modelled domain). -/
def createFile (path : String) (safe : Bool) (file : Option (List String)) :
    ToolResult × Option (List String) :=
  if safe = false then
    ({ error := "Path outside working directory." }, file)
  else
    match file with
    | some lines => ({ error := "File already exists. Use WRITE to modify." }, some lines)
    | none =>
        ({ success := true, output := "Created empty file: " ++ path ++ "\n" }, some [])

/-- Mirrors `AgentToolSet::Finish`. -/
def finish (summary : String) : ToolResult :=
  { success := true, finished := true, output := summary }

/-- An immediate child of the directory handed to Grep: a regular file with its
relative path (as `std::filesystem::relative(file, working_dir_)` renders it)
and line records, or a subdirectory with its own contents. Other entry kinds
(symlinks, devices) are outside the model; `directory_iterator` paired with
`entry.is_regular_file()` keeps only the `file` entries. -/
inductive DirEntry where
  | file (relPath : String) (lines : List String)
  | dir (name : String) (contents : List DirEntry)

/-- The `files_to_search` list Grep builds from a directory: its immediate
regular files, in iteration order, never recursing. -/
def regularFiles : List DirEntry → List (String × List String)
  | [] => []
  | DirEntry.file p ls :: rest => (p, ls) :: regularFiles rest
  | DirEntry.dir _ _ :: rest => regularFiles rest

/-- Grep's inner loop over one file:
`for (i = 0; i < lines.size() && match_count < MAX_GREP_RESULTS; ++i)`,
emitting "relpath:lineno: line" per match. `i` is the 0-based index of the
current line, `count` the running global match count. -/
def scanLines (matcher : String → Bool) (relPath : String) :
    List String → Nat → Nat → String × Nat
  | [], _, count => ("", count)
  | l :: rest, i, count =>
      if MAX_GREP_RESULTS ≤ count then ("", count)
      else if matcher l then
        let emitted := relPath ++ ":" ++ toString (i + 1) ++ ": " ++ l ++ "\n"
        let r := scanLines matcher relPath rest (i + 1) (count + 1)
        (emitted ++ r.1, r.2)
      else scanLines matcher relPath rest (i + 1) count

/-- Grep's outer loop over `files_to_search`: after each file, if the match
count has reached MAX_GREP_RESULTS the result is marked truncated and the scan
stops. Returns (emitted text, final count, truncated). -/
def scanFiles (matcher : String → Bool) :
    List (String × List String) → Nat → String × Nat × Bool
  | [], count => ("", count, false)
  | f :: rest, count =>
      let r := scanLines matcher f.1 f.2 0 count
      if MAX_GREP_RESULTS ≤ r.2 then (r.1, r.2, true)
      else
        let r2 := scanFiles matcher rest r.2
        (r.1 ++ r2.1, r2.2.1, r2.2.2)

/-- Total number of matching lines across a file list, with no cap: the
matches that exist, whether or not Grep reports them. -/
def totalMatches (matcher : String → Bool) (files : List (String × List String)) : Nat :=
  (files.map (fun f => (f.2.filter matcher).length)).sum

/-- Mirrors the directory case of `AgentToolSet::Grep`. `safe` is the
path-safety outcome for the resolved directory, `entries` its immediate
children, and `matcher` the compiled case-insensitive ECMAScript regex as a
line predicate (`none` models `std::regex_error` on construction; the claim
quantifies over valid patterns, abstracted as arbitrary predicates). -/
def grep (pattern : String) (safe : Bool) (matcher : Option (String → Bool))
    (entries : List DirEntry) : ToolResult :=
  if safe = false then
    { error := "Path outside working directory." }
  else
    match matcher with
    | none => { error := "Invalid regex pattern: " }
    | some m =>
        let scanned := scanFiles m (regularFiles entries) 0
        let out :=
          if scanned.2.1 = 0 then
            scanned.1 ++ "No matches found for pattern: " ++ pattern ++ "\n"
          else if scanned.2.2 then
            scanned.1 ++ "[Results truncated at " ++ toString MAX_GREP_RESULTS ++ " matches]\n"
          else scanned.1
        { success := true, output := out, lines_returned := scanned.2.1,
          truncated := scanned.2.2 }

/-- `std::isspace` in the default locale, over the characters that can occur
here. -/
def cppIsSpace (c : Char) : Bool :=
  c = ' ' ∨ c = '\t' ∨ c = '\n' ∨ c = '\r' ∨ c = '\x0b' ∨ c = '\x0c'

/-- `::toupper` in the C locale on ASCII. -/
def toUpperAscii (c : Char) : Char :=
  if 'a' ≤ c ∧ c ≤ 'z' then Char.ofNat (c.toNat - 32) else c

/-- `std::string::find(char)` as a position into the character list. -/
def cppFindChar (c : Char) : List Char → Option Nat
  | [] => none
  | d :: rest =>
      if d = c then some 0 else (cppFindChar c rest).map (fun i => i + 1)

/-- `std::string::find(std::string)`: position of the first occurrence of
`pat`. -/
def findSub (pat : List Char) : List Char → Option Nat
  | [] => if pat.isEmpty then some 0 else none
  | c :: rest =>
      if pat.isPrefixOf (c :: rest) then some 0
      else (findSub pat rest).map (fun i => i + 1)

/-- Models the repeated pattern `s = s.substr(0, s.find_last_not_of(ws) + 1)`
exactly as the source writes it: the substr is guarded by `end != npos`, so
when every character of s lies in ws (find_last_not_of returns npos) s is left
UNCHANGED rather than emptied. -/
def cppTrimTrailing (ws : List Char) (s : List Char) : List Char :=
  if s.all (fun c => c ∈ ws) then s
  else (s.reverse.dropWhile (fun c => c ∈ ws)).reverse

/-- Mirrors `AgentToolSet::ExtractQuotedOrWord`, reworked positionally: the
C++ advances a cursor into the argument string; here the input is the suffix
from the cursor and the returned suffix is the text after the consumed token. -/
def extractQuotedOrWord (input : List Char) : String × List Char :=
  let s := input.dropWhile (fun c => cppIsSpace c)
  match s with
  | [] => ("", [])
  | c :: rest =>
      if c = '"' then
        let tok := rest.takeWhile (fun d => ¬ d = '"')
        (String.mk tok, (rest.drop tok.length).drop 1)
      else
        let tok := s.takeWhile (fun d => ¬ cppIsSpace d)
        (String.mk tok, s.drop tok.length)

/-- Value of a nonempty decimal digit run. -/
def digitsVal (ds : List Char) : Nat :=
  ds.foldl (fun acc c => acc * 10 + (c.toNat - '0'.toNat)) 0

/-- `std::stoi` under the `catch (...)` wrappers of the source: leading
whitespace, an optional sign, then at least one digit; `none` models the
invalid-argument and out-of-int-range exceptions. -/
def cppStoi (s : String) : Option Int :=
  let cs := s.data.dropWhile (fun c => cppIsSpace c)
  let signAndRest : Int × List Char :=
    match cs with
    | '+' :: r => (1, r)
    | '-' :: r => (-1, r)
    | _ => (1, cs)
  let digits := signAndRest.2.takeWhile (fun c => c.isDigit)
  if digits.isEmpty then none
  else
    let v : Int := signAndRest.1 * (digitsVal digits : Int)
    if v < -(2 ^ 31) ∨ (2 ^ 31 - 1 : Int) < v then none else some v

/-- Mirrors `AgentToolSet::ParseLineRange`. -/
def parseLineRange (range : String) : Option (Int × Int) :=
  match cppFindChar '-' range.data with
  | none => none
  | some dash =>
      match cppStoi (String.mk (range.data.take dash)),
            cppStoi (String.mk (range.data.drop (dash + 1))) with
      | some s, some e => some (s, e)
      | _, _ => none

/-- `content_block.find(marker)` + truncation: content runs to the sentinel
when present, anywhere in the remaining text. -/
def clipAtMarker (marker : List Char) (cb : List Char) : List Char :=
  match findSub marker cb with
  | none => cb
  | some i => cb.take i

/-- The `if (!content_block.empty() && content_block.back() == '\n')
content_block.pop_back()` step. -/
def stripOneTrailingNewline (cb : List Char) : List Char :=
  match cb.getLast? with
  | some c => if c = '\n' then cb.dropLast else cb
  | none => cb

/-- The operation layer Execute dispatches into. The per-operation behaviors
are modelled separately above (readLines, grep, writeLines, ...); Execute's
own contribution — trimming, verb recognition, argument and content-block
parsing, FINISH and the unknown-verb error — is modelled concretely below over
these abstract callbacks. -/
structure ToolOps where
  readLines : String → Int → Int → ToolResult
  grep : String → String → ToolResult
  listDir : String → ToolResult
  fileInfo : String → ToolResult
  writeLines : String → Int → Int → String → ToolResult
  insertLines : String → Int → String → ToolResult
  deleteLines : String → Int → Int → ToolResult
  createFile : String → ToolResult

/-- Mirrors `AgentToolSet::Execute`: trim leading whitespace, split the verb
at the first space, uppercase it, then dispatch. -/
def execute (ops : ToolOps) (command : String) : ToolResult :=
  let cs := command.data.dropWhile (fun c => c = ' ' ∨ c = '\t' ∨ c = '\n' ∨ c = '\r')
  if cs.isEmpty then { error := "Empty command." }
  else
    let split :=
      match cppFindChar ' ' cs with
      | none => (cs, ([] : List Char))
      | some i => (cs.take i, cs.drop (i + 1))
    let cmd_type := String.mk (split.1.map toUpperAscii)
    let args := split.2
    if cmd_type = "READ_LINES" then
      let t1 := extractQuotedOrWord args
      let t2 := extractQuotedOrWord t1.2
      match parseLineRange t2.1 with
      | none => { error := "Invalid line range format. Use: READ_LINES <path> <start>-<end>" }
      | some r => ops.readLines t1.1 r.1 r.2
    else if cmd_type = "GREP" then
      let t1 := extractQuotedOrWord args
      let t2 := extractQuotedOrWord t1.2
      ops.grep t1.1 (if t2.1.data.isEmpty then "." else t2.1)
    else if cmd_type = "LIST" then
      ops.listDir (if args.isEmpty then "."
                   else String.mk (cppTrimTrailing [' ', '\t', '\n', '\r'] args))
    else if cmd_type = "FILE_INFO" then
      ops.fileInfo (String.mk (cppTrimTrailing [' ', '\t', '\n', '\r'] args))
    else if cmd_type = "CREATE" then
      ops.createFile (String.mk (cppTrimTrailing [' ', '\t', '\n', '\r'] args))
    else if cmd_type = "DELETE_LINES" then
      let t1 := extractQuotedOrWord args
      let t2 := extractQuotedOrWord t1.2
      match parseLineRange t2.1 with
      | none => { error := "Invalid format. Use: DELETE_LINES <path> <start>-<end>" }
      | some r => ops.deleteLines t1.1 r.1 r.2
    else if cmd_type = "WRITE" then
      let t1 := extractQuotedOrWord args
      let t2 := extractQuotedOrWord t1.2
      match parseLineRange t2.1 with
      | none => { error := "Invalid format. Use: WRITE <path> <start>-<end>\\n<content>\\nEND_WRITE" }
      | some r =>
          match cppFindChar '\n' t2.2 with
          | none => { error := "Missing content block. Content should follow on next line." }
          | some nl =>
              let cb := stripOneTrailingNewline
                          (clipAtMarker "END_WRITE".data (t2.2.drop (nl + 1)))
              ops.writeLines t1.1 r.1 r.2 (String.mk cb)
    else if cmd_type = "INSERT" then
      let t1 := extractQuotedOrWord args
      let t2 := extractQuotedOrWord t1.2
      match cppStoi t2.1 with
      | none => { error := "Invalid line number." }
      | some after_line =>
          match cppFindChar '\n' t2.2 with
          | none => { error := "Missing content block." }
          | some nl =>
              let cb := stripOneTrailingNewline
                          (clipAtMarker "END_INSERT".data (t2.2.drop (nl + 1)))
              ops.insertLines t1.1 after_line (String.mk cb)
    else if cmd_type = "FINISH" then
      finish (String.mk args)
    else
      { error := "Unknown command: " ++ cmd_type ++ "\n" ++
                 "Available: READ_LINES, GREP, LIST, FILE_INFO, WRITE, INSERT, DELETE_LINES, CREATE, FINISH" }

/-- The reasoning marker "THOUGHT:" searched for by ParseModelOutput. -/
def thoughtMarker : List Char := "THOUGHT:".data

/-- The command marker "CMD:" searched for by ParseModelOutput. -/
def cmdMarker : List Char := "CMD:".data

/-- ParseModelOutput's thought extraction: the text between the end of
"THOUGHT:" (position tp + 8) and the command marker at cp, with leading
spaces/tabs skipped and trailing " \t\n\r" trimmed (with the npos quirk of
cppTrimTrailing). -/
def extractThought (cs : List Char) (tp cp : Nat) : List Char :=
  cppTrimTrailing [' ', '\t', '\n', '\r']
    (((cs.drop (tp + 8)).take (cp - (tp + 8))).dropWhile (fun c => c = ' ' ∨ c = '\t'))

/-- ParseModelOutput's command extraction: everything after "CMD:" (position
cp + 4) with leading spaces/tabs skipped and trailing " \t\r" trimmed —
newlines are deliberately NOT in the trailing trim set, preserving multi-line
WRITE/INSERT bodies (again with the npos quirk). -/
def extractCommand (cs : List Char) (cp : Nat) : List Char :=
  cppTrimTrailing [' ', '\t', '\r']
    ((cs.drop (cp + 4)).dropWhile (fun c => c = ' ' ∨ c = '\t'))

/-- Mirrors `RecursiveAgent::ParseModelOutput`: locate the first "THOUGHT:"
and the first "CMD:", require the command marker strictly after the reasoning
marker, extract both fields, and accept only when both are nonempty (the
source returns `!thought.empty() && !command.empty()`; `none` is its `false`).
The source's duplicated fallback `find` calls repeat the identical search and
are omitted. -/
def parseModelOutput (output : String) : Option (String × String) :=
  match findSub thoughtMarker output.data with
  | none => none
  | some tp =>
      match findSub cmdMarker output.data with
      | none => none
      | some cp =>
          if cp ≤ tp then none
          else
            let thought := extractThought output.data tp cp
            let command := extractCommand output.data cp
            if thought.isEmpty ∨ command.isEmpty then none
            else some (String.mk thought, String.mk command)

/-- Mirrors `enum class AgentState`. -/
inductive AgentState where
  | Ready
  | Thinking
  | Executing
  | Finished
  | Error
  | Interrupted
deriving Repr, DecidableEq

/-- The enumerator values used by Run's "Task ended with state: N" message
(`static_cast<int>(state_)`). -/
def stateCode : AgentState → Nat
  | AgentState.Ready => 0
  | AgentState.Thinking => 1
  | AgentState.Executing => 2
  | AgentState.Finished => 3
  | AgentState.Error => 4
  | AgentState.Interrupted => 5

/-- Mirrors `struct AgentStep`. -/
structure AgentStep where
  observation : String := ""
  thought : String := ""
  command : String := ""
  result : ToolResult := {}
deriving Repr, DecidableEq

/-- Mirrors `struct AgentConfig` with its member initializers. -/
structure AgentConfig where
  model_path : String := "models/Qwen3-0.6B-Q8_0.gguf"
  max_steps : Nat := 25
  max_tokens_per_step : Nat := 512
  context_window : Nat := 2048
  history_window : Nat := 8
deriving Repr, DecidableEq

/-- The controller state owned by RecursiveAgent: configuration, state enum,
task context, history, step counter and final summary. The model handle and
the callback table are not part of the data model; the on_error payloads and
inference invocations are reported in the traces below instead. -/
structure Agent where
  config : AgentConfig := {}
  state : AgentState := AgentState.Ready
  current_task : String := ""
  working_dir : String := ""
  history : List AgentStep := []
  step_count : Nat := 0
  final_summary : String := ""
deriving Repr, DecidableEq

/-- The terminal-state test `state_ == Finished || state_ == Error ||
state_ == Interrupted` used by Step's no-op guard and Run's loop condition. -/
def isTerminal (s : AgentState) : Bool :=
  s = AgentState.Finished ∨ s = AgentState.Error ∨ s = AgentState.Interrupted

/-- The synthesized first observation:
`"Working directory: " + wd + "\nTask: " + current_task_`. -/
def synthObservation (wd task : String) : String :=
  "Working directory: " ++ wd ++ "\nTask: " ++ task

/-- The delayed observation taken from the previous step's result:
`prev.result.success ? prev.result.output : "ERROR: " + prev.result.error`. -/
def expectedObs (prev : AgentStep) : String :=
  if prev.result.success then prev.result.output
  else "ERROR: " ++ prev.result.error

/-- The per-step external events Step depends on: the inference collaborator's
raw reply to the prompt, and the interrupt flag value at the check immediately
after inference returns. -/
structure StepEnv where
  modelOutput : String
  interruptAfterInfer : Bool := false
deriving Repr, DecidableEq

/-- One Step call's outcome: the controller afterwards, Step's boolean return,
whether model_.Infer was invoked, the command strings passed to
toolset_.Execute, and the payloads delivered to the on_error callback. -/
structure StepTrace where
  agent : Agent
  stepReturn : Bool
  inferCalled : Bool
  dispatched : List String
  errorReports : List String

/-- Mirrors `RecursiveAgent::Step`. `exec` is the toolset closure
(`toolset_.Execute`); toolset-side filesystem mutation is modelled at the
operation level above, so here only its ToolResult matters. -/
def stepFn (exec : String → ToolResult) (env : StepEnv) (a : Agent) : StepTrace :=
  if isTerminal a.state then
    { agent := a, stepReturn := false, inferCalled := false,
      dispatched := [], errorReports := [] }
  else
    let a1 := { a with step_count := a.step_count + 1, state := AgentState.Thinking }
    -- BuildPrompt() and model_.Infer(...) run here; env.modelOutput is the reply.
    if env.interruptAfterInfer then
      { agent := { a1 with state := AgentState.Interrupted }, stepReturn := false,
        inferCalled := true, dispatched := [], errorReports := [] }
    else
      match parseModelOutput env.modelOutput with
      | none =>
          { agent := { a1 with state := AgentState.Error }, stepReturn := false,
            inferCalled := true, dispatched := [],
            errorReports := ["Failed to parse model output: " ++ env.modelOutput] }
      | some (thought, command) =>
          let a2 := { a1 with state := AgentState.Executing }
          let result := exec command
          let obs := if a2.history.isEmpty then synthObservation a2.working_dir a2.current_task
                     else expectedObs (a2.history.getLastD {})
          let newStep : AgentStep :=
            { observation := obs, thought := thought, command := command, result := result }
          let a3 := { a2 with history := a2.history ++ [newStep] }
          if result.finished then
            let a4 := { a3 with state := AgentState.Finished, final_summary := result.output }
            { agent := a4, stepReturn := false, inferCalled := true,
              dispatched := [command], errorReports := [] }
          else
            { agent := { a3 with state := AgentState.Ready }, stepReturn := true,
              inferCalled := true, dispatched := [command], errorReports := [] }

/-- One Run-loop iteration's external events: the interrupt flag value at the
loop-top check, plus the Step-level events. -/
structure IterEnv where
  interruptAtTop : Bool := false
  stepEnv : StepEnv
deriving Repr, DecidableEq

/-- A Run call's outcome: the controller afterwards, Run's returned string,
how many times inference was invoked, every command dispatched to the toolset,
and the on_error payloads. `envExhausted` is a model artifact: the supplied
event list ran out while the C++ loop would have kept iterating. -/
structure RunTrace where
  agent : Agent
  message : String
  inferCount : Nat
  dispatched : List String
  errorReports : List String
  envExhausted : Bool := false

/-- Run's post-loop return: the final summary when Finished, otherwise
"Task ended with state: N". -/
def runExitMessage (a : Agent) : String :=
  if a.state = AgentState.Finished then a.final_summary
  else "Task ended with state: " ++ toString (stateCode a.state)

/-- Mirrors the `while` loop of `RecursiveAgent::Run`: check the loop
condition (non-terminal state), then the interrupt flag, then the step budget,
then perform one Step; break when Step returns false. -/
def runLoop (exec : String → ToolResult) : List IterEnv → Agent → RunTrace
  | [], a =>
      if isTerminal a.state then
        { agent := a, message := runExitMessage a, inferCount := 0,
          dispatched := [], errorReports := [] }
      else
        { agent := a, message := "", inferCount := 0, dispatched := [],
          errorReports := [], envExhausted := true }
  | env :: rest, a =>
      if isTerminal a.state then
        { agent := a, message := runExitMessage a, inferCount := 0,
          dispatched := [], errorReports := [] }
      else if env.interruptAtTop then
        { agent := { a with state := AgentState.Interrupted },
          message := "Task interrupted.", inferCount := 0,
          dispatched := [], errorReports := [] }
      else if a.config.max_steps ≤ a.step_count then
        { agent := { a with state := AgentState.Error },
          message := "Maximum steps (" ++ toString a.config.max_steps ++
                     ") reached. Task may be incomplete.",
          inferCount := 0, dispatched := [],
          errorReports := ["Maximum steps (" ++ toString a.config.max_steps ++
                           ") reached. Task may be incomplete."] }
      else
        let t := stepFn exec env.stepEnv a
        if t.stepReturn then
          let r := runLoop exec rest t.agent
          { agent := r.agent, message := r.message,
            inferCount := (if t.inferCalled then 1 else 0) + r.inferCount,
            dispatched := t.dispatched ++ r.dispatched,
            errorReports := t.errorReports ++ r.errorReports,
            envExhausted := r.envExhausted }
        else
          { agent := t.agent, message := runExitMessage t.agent,
            inferCount := if t.inferCalled then 1 else 0,
            dispatched := t.dispatched, errorReports := t.errorReports }

/-- Mirrors `RecursiveAgent::Run`'s entry: reject an Error state and an empty
task, set Ready, then loop. -/
def run (exec : String → ToolResult) (envs : List IterEnv) (a : Agent) : RunTrace :=
  if a.state = AgentState.Error then
    { agent := a, message := "Error: Agent in error state", inferCount := 0,
      dispatched := [], errorReports := [] }
  else if a.current_task.data.isEmpty then
    { agent := a, message := "Error: No task set. Call StartTask first.",
      inferCount := 0, dispatched := [], errorReports := [] }
  else
    runLoop exec envs { a with state := AgentState.Ready }

/-- Models `StartTask` on a controller: `Reset()` (clear history, step count,
task, summary; state Ready) followed by the task and working-directory
assignments. -/
def startTask (cfg : AgentConfig) (task wd : String) : Agent :=
  { config := cfg, state := AgentState.Ready, current_task := task,
    working_dir := wd, history := [], step_count := 0, final_summary := "" }

/-- The one-step-delayed observation discipline along the tail of a history:
each step's observation is the previous step's result rendering. -/
def obsChainFrom (prev : AgentStep) : List AgentStep → Bool
  | [] => true
  | s :: rest => (s.observation == expectedObs prev) && obsChainFrom s rest

/-- The full observation discipline of a history: the first step observes the
synthesized task/working-root description, every later step observes its
predecessor's result. -/
def obsChain (wd task : String) : List AgentStep → Bool
  | [] => true
  | s :: rest =>
      (s.observation == synthObservation wd task) && obsChainFrom s rest

/-- A concrete ten-line file used to instantiate the ReadLines theorems. -/
def sampleTenLines : List String :=
  ["l1", "l2", "l3", "l4", "l5", "l6", "l7", "l8", "l9", "l10"]

/-- A ToolOps instance whose callbacks all return the default ToolResult; used
to instantiate Execute's dispatch skeleton at concrete inputs. -/
def trivialOps : ToolOps :=
  { readLines := fun _ _ _ => {}, grep := fun _ _ => {}, listDir := fun _ => {},
    fileInfo := fun _ => {}, writeLines := fun _ _ _ _ => {},
    insertLines := fun _ _ _ => {}, deleteLines := fun _ _ _ => {},
    createFile := fun _ => {} }

/-- C1: the sandbox check of the source is a plain string-prefix comparison on
the canonicalized path strings, so the sibling directory /work/project2 —
which resolves OUTSIDE the working root /work/project — passes the check and
the operation proceeds instead of failing with a sandbox violation; the
component-wise ancestor check the claim (and section 9 of the specification)
demands rejects it. Evaluation of the code's check at the failing input. -/
theorem C1_prefix_sandbox_check_accepts_sibling_root :
    isPathSafe "/work/project" "/work/project2" = true ∧
    isInsideComponentwise "/work/project" "/work/project2" = false ∧
    (readLines "/work/project2/notes.txt"
      (isPathSafe "/work/project" "/work/project2/notes.txt")
      (some ["secret"]) 1 1).success = true := by
  refine ⟨by decide, by decide, by decide⟩

/-- C3: for any path-safety outcome and any file state whatsoever, a ReadLines
request with 1 ≤ start ≤ end spanning more than MAX_READ_LINES lines fails
with the narrow-your-request error: the span cap is tested before the
path-safety test and before the file state is consulted, so the failure is
independent of file existence and length. -/
theorem C3_readLines_span_cap (path : String) (safe : Bool)
    (file : Option (List String)) (start_line end_line : Int)
    (h1 : 1 ≤ start_line) (h3 : MAX_READ_LINES < end_line - start_line + 1) :
    (readLines path safe file start_line end_line).success = false ∧
    (readLines path safe file start_line end_line).error =
      "Too many lines requested (" ++ toString (end_line - start_line + 1) ++
      "). Maximum is " ++ toString MAX_READ_LINES ++ ". Narrow your request." := by
  have h2 : ¬ (start_line < 1 ∨ end_line < start_line) := by
    simp only [MAX_READ_LINES] at h3
    omega
  unfold readLines
  rw [if_neg h2, if_pos h3]
  exact ⟨rfl, rfl⟩

/-- Witness for C3 at start 1, end 52, an unsafe path and no file. -/
theorem C3_readLines_span_cap_witness :
    (1 : Int) ≤ 1 ∧ MAX_READ_LINES < 52 - 1 + 1 ∧
    (readLines "nonexistent.txt" false none 1 52).success = false :=
  ⟨by decide, by decide,
   (C3_readLines_span_cap "nonexistent.txt" false none 1 52 (by decide) (by decide)).1⟩

/-- C10: for each of the four mutating operations, whenever the returned
ToolResult has success = false the file state at the target path is returned
unchanged — every validation failure (invalid range, oversized content block,
sandbox violation, missing file for Write/Insert/Delete, existing path for
Create, start beyond end of file for Delete) is detected before the rewrite. -/
theorem C10_failed_mutations_preserve_file (path : String) (safe : Bool)
    (file : Option (List String)) (s e al : Int) (content : String) :
    ((writeLines path safe file s e content).1.success = false →
      (writeLines path safe file s e content).2 = file) ∧
    ((insertLines path safe file al content).1.success = false →
      (insertLines path safe file al content).2 = file) ∧
    ((deleteLines path safe file s e).1.success = false →
      (deleteLines path safe file s e).2 = file) ∧
    ((createFile path safe file).1.success = false →
      (createFile path safe file).2 = file) := by
  refine ⟨?_, ?_, ?_, ?_⟩
  · cases file with
    | none => unfold writeLines; split_ifs <;> simp
    | some lines =>
        unfold writeLines
        split_ifs <;> simp
        split_ifs <;> simp
  · cases file with
    | none => unfold insertLines; split_ifs <;> simp
    | some lines =>
        unfold insertLines
        split_ifs <;> simp
        split_ifs <;> simp
  · cases file with
    | none => unfold deleteLines; split_ifs <;> simp
    | some lines =>
        unfold deleteLines
        split_ifs <;> simp
        split_ifs <;> simp
  · cases file with
    | none => unfold createFile; split_ifs <;> simp
    | some lines => unfold createFile; split_ifs <;> simp

/-- C2: a successful WriteLines on an existing file keeps the existing lines
strictly before `start` (padding with empty lines when start exceeds length+1),
then places the content lines in order, then keeps the existing lines strictly
after min(end, length). -/
theorem C2_writeLines_replace_semantics (path content : String) (L : List String)
    (s e : Int) (h1 : 1 ≤ s) (h2 : s ≤ e)
    (hk : (getlineSplit content).length ≤ MAX_WRITE_LINES) :
    (writeLines path true (some L) s e content).1.success = true ∧
    (writeLines path true (some L) s e content).2 =
      some (L.take (s - 1).toNat ++ List.replicate ((s - 1).toNat - L.length) "" ++
            getlineSplit content ++ L.drop (min e.toNat L.length)) := by
  unfold writeLines
  have hr : ¬ (s < 1 ∨ e < s) := by omega
  have hk' : ¬ (MAX_WRITE_LINES < (getlineSplit content).length) := not_lt.mpr hk
  rw [if_neg hr, if_neg (by decide : ¬ ((true : Bool) = false))]
  dsimp only
  rw [if_neg hk']
  refine ⟨rfl, ?_⟩
  have hpad : (s - 1).toNat - (List.take (s - 1).toNat L).length
      = (s - 1).toNat - L.length := by
    rw [List.length_take]; omega
  have hdrop : ((min (e - 1) ((L.length : Int) - 1)) + 1).toNat
      = min e.toNat L.length := by
    rcases le_total (e - 1) ((L.length : Int) - 1) with hle | hle
    · rw [min_eq_left hle, min_eq_left (by omega : e.toNat ≤ L.length)]; omega
    · rw [min_eq_right hle, min_eq_right (by omega : L.length ≤ e.toNat)]; omega
  rw [hpad, hdrop]

/-- Witness for C2: the spec's five-line example, Write(2,3,"A\nB\nC"). -/
theorem C2_writeLines_replace_semantics_witness :
    (writeLines "w.txt" true (some ["f1", "f2", "f3", "f4", "f5"]) 2 3 "A\nB\nC").1.success
      = true ∧
    (writeLines "w.txt" true (some ["f1", "f2", "f3", "f4", "f5"]) 2 3 "A\nB\nC").2
      = some ["f1", "A", "B", "C", "f4", "f5"] := by
  have h := C2_writeLines_replace_semantics "w.txt" "A\nB\nC" ["f1", "f2", "f3", "f4", "f5"]
    2 3 (by decide) (by decide) (by decide)
  exact ⟨h.1, h.2.trans (by decide)⟩

/-- C4: an in-cap ReadLines on an existing file always succeeds; when start is
within the file it returns min(end, length) - start + 1 lines, each rendered
as "lineNo: content" with its 1-indexed number; and whenever the requested end
exceeds the file length, the output ends with the literal
"[EOF at line N]" marker. -/
theorem C4_readLines_in_range (path : String) (L : List String) (s e : Int)
    (h1 : 1 ≤ s) (h2 : s ≤ e) (h3 : e - s + 1 ≤ MAX_READ_LINES) :
    (readLines path true (some L) s e).success = true ∧
    (s ≤ (L.length : Int) →
      ((readLines path true (some L) s e).lines_returned : Int) =
        min e (L.length : Int) - s + 1) ∧
    (s ≤ (L.length : Int) →
      (readLines path true (some L) s e).output =
        String.join ((List.range' s.toNat ((min e (L.length : Int) - s + 1).toNat)).map
          (fun i => toString i ++ ": " ++ L.getD (i - 1) "" ++ "\n")) ++
        (if (L.length : Int) < e then "[EOF at line " ++ toString L.length ++ "]\n"
         else "")) ∧
    ((L.length : Int) < e →
      ∃ body, (readLines path true (some L) s e).output =
        body ++ ("[EOF at line " ++ toString L.length ++ "]\n")) := by
  unfold readLines
  have hr : ¬ (s < 1 ∨ e < s) := by omega
  have hcap : ¬ (MAX_READ_LINES < e - s + 1) := not_lt.mpr h3
  rw [if_neg hr, if_neg hcap, if_neg (by decide : ¬ ((true : Bool) = false))]
  dsimp only
  refine ⟨rfl, ?_, ?_, ?_⟩
  · intro hs
    have ha : min s ((L.length : Int) + 1) = s := min_eq_left (by omega)
    rw [ha]
    rcases le_total e (L.length : Int) with he | he
    · rw [min_eq_left he]; omega
    · rw [min_eq_right he]; omega
  · intro hs
    have ha : min s ((L.length : Int) + 1) = s := min_eq_left (by omega)
    unfold emitLines
    rw [ha]
    rcases le_total e (L.length : Int) with he | he
    · rw [min_eq_left he,
          show e.toNat + 1 - s.toNat = (e - s + 1).toNat from by omega,
          if_neg (lt_irrefl e), if_neg (by omega : ¬ ((L.length : Int) < e))]
    · rw [min_eq_right he,
          show ((L.length : Int)).toNat + 1 - s.toNat
            = ((L.length : Int) - s + 1).toNat from by omega]
  · intro hne
    have hm : min e (L.length : Int) = (L.length : Int) := min_eq_right (le_of_lt hne)
    rw [hm, if_pos hne]
    exact ⟨_, rfl⟩

/-- Witness for C4: the spec's example, Read(8,15) on a ten-line file — three
lines returned and the EOF marker present. -/
theorem C4_readLines_in_range_witness :
    (readLines "t.txt" true (some sampleTenLines) 8 15).success = true ∧
    (readLines "t.txt" true (some sampleTenLines) 8 15).lines_returned = 3 ∧
    (∃ body, (readLines "t.txt" true (some sampleTenLines) 8 15).output =
      body ++ ("[EOF at line " ++ toString sampleTenLines.length ++ "]\n")) := by
  have h := C4_readLines_in_range "t.txt" sampleTenLines 8 15
    (by decide) (by decide) (by decide)
  exact ⟨h.1, by decide, h.2.2.2 (by decide)⟩

/-- totalMatches distributes over cons. -/
theorem totalMatches_cons (m : String → Bool) (f : String × List String)
    (rest : List (String × List String)) :
    totalMatches m (f :: rest) = (f.2.filter m).length + totalMatches m rest := by
  simp [totalMatches]

/-- The inner Grep loop leaves the match count at the capped running total:
starting from c ≤ cap it ends at min (c + matches-in-file) cap. -/
theorem scanLines_snd (m : String → Bool) (rel : String) (ls : List String)
    (i c : Nat) (hc : c ≤ MAX_GREP_RESULTS) :
    (scanLines m rel ls i c).2 = min (c + (ls.filter m).length) MAX_GREP_RESULTS := by
  induction ls generalizing i c with
  | nil => simp [scanLines]; omega
  | cons l rest ih =>
      by_cases h20 : MAX_GREP_RESULTS ≤ c
      · rw [scanLines, if_pos h20]
        simp only
        omega
      · by_cases hm : m l
        · rw [scanLines, if_neg h20, if_pos hm]
          dsimp only
          rw [ih (i + 1) (c + 1) (by omega), List.filter_cons, if_pos hm]
          simp only [List.length_cons]
          omega
        · rw [scanLines, if_neg h20, if_neg hm]
          rw [ih (i + 1) c hc, List.filter_cons, if_neg hm]

/-- The outer Grep loop: the final count is the capped running total, and the
truncated flag is raised exactly when the file list is nonempty and the
running total reaches the cap. -/
theorem scanFiles_spec (m : String → Bool) (files : List (String × List String))
    (c : Nat) (hc : c ≤ MAX_GREP_RESULTS) :
    (scanFiles m files c).2.1 = min (c + totalMatches m files) MAX_GREP_RESULTS ∧
    ((scanFiles m files c).2.2 = true ↔
      (files ≠ [] ∧ MAX_GREP_RESULTS ≤ c + totalMatches m files)) := by
  induction files generalizing c with
  | nil =>
      simp [scanFiles, totalMatches]
      omega
  | cons f rest ih =>
      have hcount := scanLines_snd m f.1 f.2 0 c hc
      rw [scanFiles]
      by_cases hfull : MAX_GREP_RESULTS ≤ (scanLines m f.1 f.2 0 c).2
      · rw [if_pos hfull]
        rw [hcount] at hfull
        constructor
        · dsimp only
          rw [hcount, totalMatches_cons]
          omega
        · dsimp only
          rw [totalMatches_cons]
          constructor
          · intro _
            exact ⟨List.cons_ne_nil _ _, by omega⟩
          · intro _
            rfl
      · rw [if_neg hfull]
        rw [hcount] at hfull
        have hlt : c + (f.2.filter m).length < MAX_GREP_RESULTS := by omega
        have hr2 : (scanLines m f.1 f.2 0 c).2 = c + (f.2.filter m).length := by
          rw [hcount]; omega
        have hrec := ih ((scanLines m f.1 f.2 0 c).2) (by rw [hr2]; omega)
        constructor
        · simp only
          rw [hrec.1, hr2, totalMatches_cons]
          omega
        · simp only [totalMatches_cons]
          rw [hrec.2, hr2]
          constructor
          · rintro ⟨_, hge⟩
            exact ⟨List.cons_ne_nil _ _, by omega⟩
          · rintro ⟨-, hge⟩
            refine ⟨?_, by omega⟩
            intro hnil
            rw [hnil] at hge
            simp [totalMatches] at hge
            omega

/-- C5 counterexample: a directory with one file holding exactly
MAX_GREP_RESULTS matching lines. Grep marks the result truncated even though
the total number of matches equals the number returned, i.e. no matches exist
beyond the 20 returned — refuting "truncated = true exactly when more matches
exist beyond the 20 returned". -/
theorem C5_grep_truncated_counterexample :
    (grep "hit" true (some (fun _ => true))
      [DirEntry.file "f" (List.replicate 20 "x")]).truncated = true ∧
    totalMatches (fun _ => true)
      (regularFiles [DirEntry.file "f" (List.replicate 20 "x")]) = 20 ∧
    (grep "hit" true (some (fun _ => true))
      [DirEntry.file "f" (List.replicate 20 "x")]).lines_returned = 20 :=
  ⟨by decide, by decide, by decide⟩

/-- C5 amended: over the immediate regular files of the directory (its result
depends on nothing else, in particular never on subdirectory contents), Grep
always succeeds, returns min(total matches, 20) matches, raises truncated
exactly when the total match count reaches the cap of 20 (including the case
of exactly 20 matches, where nothing was omitted), and reports zero matches
with an explanatory no-matches message rather than a failure. -/
theorem C5_grep_bounded_scan_amended (pattern : String) (m : String → Bool)
    (entries : List DirEntry) :
    (grep pattern true (some m) entries).success = true ∧
    (grep pattern true (some m) entries).lines_returned =
      min (totalMatches m (regularFiles entries)) MAX_GREP_RESULTS ∧
    ((grep pattern true (some m) entries).truncated = true ↔
      MAX_GREP_RESULTS ≤ totalMatches m (regularFiles entries)) ∧
    (∀ entries2, regularFiles entries2 = regularFiles entries →
      grep pattern true (some m) entries2 = grep pattern true (some m) entries) ∧
    (totalMatches m (regularFiles entries) = 0 →
      ∃ preamble, (grep pattern true (some m) entries).output =
        preamble ++ "No matches found for pattern: " ++ pattern ++ "\n") := by
  have hspec := scanFiles_spec m (regularFiles entries) 0 (Nat.zero_le _)
  refine ⟨rfl, ?_, ?_, ?_, ?_⟩
  · show (scanFiles m (regularFiles entries) 0).2.1 = _
    rw [hspec.1, Nat.zero_add]
  · show (scanFiles m (regularFiles entries) 0).2.2 = true ↔ _
    rw [hspec.2]
    constructor
    · rintro ⟨_, hge⟩; omega
    · intro hge
      refine ⟨?_, by omega⟩
      intro hnil
      rw [hnil] at hge
      simp only [totalMatches, List.map_nil, List.sum_nil] at hge
      simp only [MAX_GREP_RESULTS] at hge
      omega
  · intro entries2 h2
    unfold grep
    rw [h2]
  · intro h0
    have hcnt : (scanFiles m (regularFiles entries) 0).2.1 = 0 := by
      rw [hspec.1, h0]; decide
    refine ⟨(scanFiles m (regularFiles entries) 0).1, ?_⟩
    simp only [grep]
    rw [if_neg (by decide : ¬ ((true : Bool) = false))]
    dsimp only
    rw [if_pos hcnt]

/-- Witness for C5 (amended): one match below the cap (no truncation) and the
no-matches success message. -/
theorem C5_grep_bounded_scan_amended_witness :
    (grep "m" true (some (fun l => l == "m")) [DirEntry.file "a" ["m", "n"]]).success
      = true ∧
    (grep "m" true (some (fun l => l == "m")) [DirEntry.file "a" ["m", "n"]]).lines_returned
      = 1 ∧
    ∃ preamble, (grep "q" true (some (fun _ => false)) [DirEntry.file "b" ["n"]]).output =
      preamble ++ "No matches found for pattern: " ++ "q" ++ "\n" := by
  have h1 := C5_grep_bounded_scan_amended "m" (fun l => l == "m") [DirEntry.file "a" ["m", "n"]]
  have h2 := C5_grep_bounded_scan_amended "q" (fun _ => false) [DirEntry.file "b" ["n"]]
  exact ⟨h1.1, h1.2.1.trans (by decide), h2.2.2.2.2 (by decide)⟩

/-- C6 counterexample: the response "THOUGHT:\nCMD: LIST ." has a reasoning
field that is pure whitespace (a lone newline), hence empty after trimming;
the claim demands the controller transition to Error without dispatching, but
ParseModelOutput's trailing trim is skipped when find_last_not_of returns npos,
so the untouched "\n" counts as nonempty, the parse succeeds, and Step
dispatches the command. -/
theorem C6_parse_whitespace_thought_counterexample :
    parseModelOutput "THOUGHT:\nCMD: LIST ." = some ("\n", "LIST .") ∧
    ("\n" : String).data.all (fun c => c.isWhitespace) = true ∧
    (stepFn (fun _ => {}) { modelOutput := "THOUGHT:\nCMD: LIST ." }
      (startTask {} "t" "/w")).dispatched = ["LIST ."] ∧
    (stepFn (fun _ => {}) { modelOutput := "THOUGHT:\nCMD: LIST ." }
      (startTask {} "t" "/w")).agent.state ≠ AgentState.Error :=
  ⟨by decide, by decide, by decide, by decide⟩

/-- C6 amended: whenever the reasoning marker is missing, the command marker
is missing, the command marker does not occur strictly after the reasoning
marker, or either extracted field is empty as the code extracts it (the
thought is empty exactly when only spaces/tabs separate the markers; the
command is empty exactly when only spaces/tabs follow its marker; whitespace
containing a newline is NOT treated as empty), Step transitions to Error
without dispatching any tool command and surfaces the raw model output through
the error channel. -/
theorem C6_parse_error_path_amended (exec : String → ToolResult) (env : StepEnv)
    (a : Agent) (hterm : isTerminal a.state = false)
    (hint : env.interruptAfterInfer = false)
    (hbad : findSub thoughtMarker env.modelOutput.data = none ∨
            findSub cmdMarker env.modelOutput.data = none ∨
            (∃ tp cp, findSub thoughtMarker env.modelOutput.data = some tp ∧
                      findSub cmdMarker env.modelOutput.data = some cp ∧
                      (cp ≤ tp ∨ extractThought env.modelOutput.data tp cp = [] ∨
                       extractCommand env.modelOutput.data cp = []))) :
    (stepFn exec env a).agent.state = AgentState.Error ∧
    (stepFn exec env a).dispatched = [] ∧
    (stepFn exec env a).errorReports =
      ["Failed to parse model output: " ++ env.modelOutput] := by
  have hnone : parseModelOutput env.modelOutput = none := by
    unfold parseModelOutput
    rcases hbad with h | h | ⟨tp, cp, htp, hcp, hor⟩
    · rw [h]
    · rw [h]
      cases findSub thoughtMarker env.modelOutput.data <;> rfl
    · rw [htp, hcp]
      dsimp only
      rcases hor with h1 | h1 | h1
      · rw [if_pos h1]
      · by_cases hle : cp ≤ tp
        · rw [if_pos hle]
        · rw [if_neg hle]
          rw [if_pos (Or.inl (by rw [h1]; rfl))]
      · by_cases hle : cp ≤ tp
        · rw [if_pos hle]
        · rw [if_neg hle]
          rw [if_pos (Or.inr (by rw [h1]; rfl))]
  unfold stepFn
  rw [if_neg (by simp [hterm]), if_neg (by simp [hint]), hnone]
  exact ⟨rfl, rfl, rfl⟩

/-- Witness for C6 (amended): a reasoning-only response (no command marker)
drives Step to Error with nothing dispatched. -/
theorem C6_parse_error_path_amended_witness :
    isTerminal (startTask {} "t" "/w").state = false ∧
    findSub cmdMarker ("THOUGHT: reasoning only" : String).data = none ∧
    (stepFn (fun _ => {}) { modelOutput := "THOUGHT: reasoning only" }
      (startTask {} "t" "/w")).agent.state = AgentState.Error ∧
    (stepFn (fun _ => {}) { modelOutput := "THOUGHT: reasoning only" }
      (startTask {} "t" "/w")).dispatched = [] := by
  have h := C6_parse_error_path_amended (fun _ => {})
    { modelOutput := "THOUGHT: reasoning only" } (startTask {} "t" "/w")
    (by decide) (by decide) (Or.inr (Or.inl (by decide)))
  exact ⟨by decide, by decide, h.1, h.2.1⟩

/-- Appending a step whose observation matches its predecessor's result
rendering preserves the tail discipline. -/
theorem obsChainFrom_append (prev s : AgentStep) (h : List AgentStep)
    (hchain : obsChainFrom prev h = true)
    (hobs : s.observation = expectedObs (h.getLastD prev)) :
    obsChainFrom prev (h ++ [s]) = true := by
  induction h generalizing prev with
  | nil =>
      simp only [List.nil_append, obsChainFrom, Bool.and_true, beq_iff_eq]
      simpa using hobs
  | cons x t ih =>
      simp only [List.cons_append, obsChainFrom, Bool.and_eq_true] at hchain ⊢
      refine ⟨hchain.1, ih x hchain.2 ?_⟩
      rw [List.getLastD_cons] at hobs
      exact hobs

/-- Appending a step with the correct (delayed) observation preserves the full
observation discipline. -/
theorem obsChain_append (wd task : String) (h : List AgentStep) (s : AgentStep)
    (hchain : obsChain wd task h = true)
    (hobs : s.observation =
      if h.isEmpty then synthObservation wd task else expectedObs (h.getLastD {})) :
    obsChain wd task (h ++ [s]) = true := by
  cases h with
  | nil =>
      simp only [List.isEmpty_nil, if_pos] at hobs
      simp only [List.nil_append, obsChain, obsChainFrom, Bool.and_true, beq_iff_eq]
      simpa using hobs
  | cons x t =>
      simp only [List.isEmpty_cons, if_neg, Bool.false_eq_true, if_false] at hobs
      simp only [List.cons_append, obsChain, Bool.and_eq_true] at hchain ⊢
      refine ⟨hchain.1, obsChainFrom_append x s t hchain.2 ?_⟩
      rw [List.getLastD_cons] at hobs
      exact hobs

/-- One Step preserves the working directory, the task and the observation
discipline of the history. -/
theorem stepFn_preserves_obsChain (exec : String → ToolResult) (env : StepEnv)
    (a : Agent)
    (hchain : obsChain a.working_dir a.current_task a.history = true) :
    (stepFn exec env a).agent.working_dir = a.working_dir ∧
    (stepFn exec env a).agent.current_task = a.current_task ∧
    obsChain a.working_dir a.current_task (stepFn exec env a).agent.history = true := by
  unfold stepFn
  by_cases hterm : isTerminal a.state
  · rw [if_pos hterm]
    exact ⟨rfl, rfl, hchain⟩
  · rw [if_neg hterm]
    by_cases hint : env.interruptAfterInfer
    · rw [if_pos hint]
      exact ⟨rfl, rfl, hchain⟩
    · rw [if_neg hint]
      cases hp : parseModelOutput env.modelOutput with
      | none =>
          exact ⟨rfl, rfl, hchain⟩
      | some pr =>
          cases pr with
          | mk thought command =>
              dsimp only
              by_cases hfin : (exec command).finished
              · rw [if_pos hfin]
                exact ⟨rfl, rfl, obsChain_append _ _ _ _ hchain rfl⟩
              · rw [if_neg hfin]
                exact ⟨rfl, rfl, obsChain_append _ _ _ _ hchain rfl⟩

/-- The run loop preserves the observation discipline along with the working
directory and task. -/
theorem runLoop_preserves_obsChain (exec : String → ToolResult)
    (envs : List IterEnv) (a : Agent)
    (hchain : obsChain a.working_dir a.current_task a.history = true) :
    obsChain a.working_dir a.current_task (runLoop exec envs a).agent.history = true ∧
    (runLoop exec envs a).agent.working_dir = a.working_dir ∧
    (runLoop exec envs a).agent.current_task = a.current_task := by
  induction envs generalizing a with
  | nil =>
      unfold runLoop
      split_ifs <;> exact ⟨hchain, rfl, rfl⟩
  | cons env rest ih =>
      unfold runLoop
      split_ifs with h1 h2 h3
      · exact ⟨hchain, rfl, rfl⟩
      · exact ⟨hchain, rfl, rfl⟩
      · exact ⟨hchain, rfl, rfl⟩
      · have hstep := stepFn_preserves_obsChain exec env.stepEnv a hchain
        by_cases hret : (stepFn exec env.stepEnv a).stepReturn
        · rw [if_pos hret]
          dsimp only
          have hrec := ih (stepFn exec env.stepEnv a).agent
            (by rw [hstep.1, hstep.2.1]; exact hstep.2.2)
          refine ⟨?_, hrec.2.1.trans hstep.1, hrec.2.2.trans hstep.2.1⟩
          rw [← hstep.1, ← hstep.2.1]
          exact hrec.1
        · rw [if_neg hret]
          exact ⟨hstep.2.2, hstep.1, hstep.2.1⟩

/-- C7: along any full run from a fresh StartTask, the recorded history obeys
the one-step-delayed observation discipline: the first appended step observes
the synthesized working-root/task description, and every subsequent step
observes the previous step's result (its output on success, or "ERROR: " plus
its error on failure). -/
theorem C7_observation_one_step_delayed (exec : String → ToolResult)
    (envs : List IterEnv) (cfg : AgentConfig) (task wd : String) :
    obsChain wd task ((run exec envs (startTask cfg task wd)).agent.history) = true := by
  unfold run
  split_ifs with h1 h2
  · rfl
  · rfl
  · have h := runLoop_preserves_obsChain exec envs
      { startTask cfg task wd with state := AgentState.Ready } rfl
    exact h.1

/-- C8: executing "FINISH s" through the toolset dispatch produces a
ToolResult with success and finished set and output exactly s; and whenever a
step's parsed command is "FINISH s", the controller transitions to Finished
with final summary exactly s. -/
theorem C8_finish_verbatim_summary (ops : ToolOps) (s : String) :
    execute ops ("FINISH " ++ s) =
      { success := true, finished := true, output := s } ∧
    ∀ (env : StepEnv) (a : Agent) (th : String),
      isTerminal a.state = false → env.interruptAfterInfer = false →
      parseModelOutput env.modelOutput = some (th, "FINISH " ++ s) →
      (stepFn (execute ops) env a).agent.state = AgentState.Finished ∧
      (stepFn (execute ops) env a).agent.final_summary = s := by
  have hexec : execute ops ("FINISH " ++ s) =
      { success := true, finished := true, output := s } := rfl
  refine ⟨hexec, ?_⟩
  intro env a th hterm hint hparse
  unfold stepFn
  rw [if_neg (by simp [hterm]), if_neg (by simp [hint]), hparse]
  dsimp only
  rw [hexec]
  exact ⟨rfl, rfl⟩

/-- Witness for C8: a concrete FINISH response ends the step Finished with the
verbatim summary. -/
theorem C8_finish_verbatim_summary_witness :
    execute trivialOps ("FINISH " ++ "done") =
      { success := true, finished := true, output := "done" } ∧
    (stepFn (execute trivialOps) { modelOutput := "THOUGHT: ok\nCMD: FINISH done" }
      (startTask {} "t" "/w")).agent.state = AgentState.Finished ∧
    (stepFn (execute trivialOps) { modelOutput := "THOUGHT: ok\nCMD: FINISH done" }
      (startTask {} "t" "/w")).agent.final_summary = "done" := by
  have h := C8_finish_verbatim_summary trivialOps "done"
  have h2 := h.2 { modelOutput := "THOUGHT: ok\nCMD: FINISH done" }
    (startTask {} "t" "/w") "ok" (by decide) (by decide) (by decide)
  exact ⟨h.1, h2.1, h2.2⟩

/-- C9: when the interrupt flag reads true at the loop-top check before a step
begins, the run transitions to Interrupted without invoking inference or
dispatching any command, returns "Task interrupted.", and Interrupted is an
outcome distinct from both Finished and Error. -/
theorem C9_interrupt_before_step (exec : String → ToolResult) (env0 : IterEnv)
    (envs : List IterEnv) (a : Agent)
    (hne : a.state ≠ AgentState.Error)
    (htask : a.current_task.data.isEmpty = false)
    (hflag : env0.interruptAtTop = true) :
    (run exec (env0 :: envs) a).agent.state = AgentState.Interrupted ∧
    (run exec (env0 :: envs) a).inferCount = 0 ∧
    (run exec (env0 :: envs) a).dispatched = [] ∧
    (run exec (env0 :: envs) a).message = "Task interrupted." ∧
    AgentState.Interrupted ≠ AgentState.Finished ∧
    AgentState.Interrupted ≠ AgentState.Error := by
  unfold run
  rw [if_neg hne, if_neg (by simp [htask])]
  unfold runLoop
  rw [if_neg (by decide : ¬ (isTerminal AgentState.Ready = true)), if_pos hflag]
  exact ⟨rfl, rfl, rfl, rfl, by decide, by decide⟩

/-- Witness for C9: a concrete interrupted run. -/
theorem C9_interrupt_before_step_witness :
    (startTask {} "t" "/w").state ≠ AgentState.Error ∧
    (run (fun _ => {}) [{ interruptAtTop := true, stepEnv := { modelOutput := "x" } }]
      (startTask {} "t" "/w")).agent.state = AgentState.Interrupted ∧
    (run (fun _ => {}) [{ interruptAtTop := true, stepEnv := { modelOutput := "x" } }]
      (startTask {} "t" "/w")).inferCount = 0 := by
  have h := C9_interrupt_before_step (fun _ => {})
    { interruptAtTop := true, stepEnv := { modelOutput := "x" } } []
    (startTask {} "t" "/w") (by decide) (by decide) (by decide)
  exact ⟨by decide, h.1, h.2.1⟩

/-- Witness for C10: an invalid range, a negative insert line, a delete start
beyond end of file, and a Create on an existing file all leave the file state
untouched. -/
theorem C10_failed_mutations_preserve_file_witness :
    (writeLines "f" true (some ["x"]) 0 0 "y").2 = some ["x"] ∧
    (insertLines "f" true (some ["x"]) (-1) "y").2 = some ["x"] ∧
    (deleteLines "f" true (some ["x"]) 5 6).2 = some ["x"] ∧
    (createFile "f" true (some ["x"])).2 = some ["x"] := by
  have h := C10_failed_mutations_preserve_file "f" true (some ["x"]) 0 0 (-1) "y"
  have h2 := C10_failed_mutations_preserve_file "f" true (some ["x"]) 5 6 0 "y"
  exact ⟨h.1 (by decide), h.2.1 (by decide), h2.2.2.1 (by decide), h.2.2.2 (by decide)⟩

end Zweek
